import Mathlib

/-!
Verification development for the "select-unused-variables" Figma plugin.

The repository's core is a usage-resolution engine over a document tree and a
variable store.  This file shallowly embeds the data model and the operations
of the three source variants (`src/code.ts`, `src/select-unused-variables/code.ts`,
`src/unnamed/part_000`) and proves properties about them.

Modelling conventions:
  * JS `Set<string>` accumulators are modelled as `List String` (order of
    discovery, membership is what matters) or `Finset String` for the
    fixed-point computation.
  * `null`/`undefined` binding values are the `BindingVal.absent` constructor;
    a JS array possibly holding `null` entries is `many (List (Option Binding))`.
  * Host lookups (`figma.variables.getVariableById`, `figma.getStyleById`) are
    reads over an explicit store/registry record.
  * Timing (`setTimeout` delays, `Date.now()`) is irrelevant to the verified
    properties and is modelled as a no-op / the constant 0.
-/

/-- A variable binding object as it appears under `boundVariables`
(`{ id, type }` in the source, `type` is the discriminator string,
normally `"VARIABLE_ALIAS"`). -/
structure Binding where
  btype : String
  id : String
deriving DecidableEq, Repr

/-- The raw value found under one key of a `boundVariables` map: absent
(`null`/`undefined`), a single binding object, or an array of (possibly null)
binding objects.  This is the union representation the source normalizes with
`Array.isArray(binding) ? binding : [binding]`. -/
inductive BindingVal where
  | absent
  | single (b : Binding)
  | many (bs : List (Option Binding))
deriving DecidableEq, Repr

/-- `Array.isArray(binding) ? binding : [binding]` — the normalization step
shared by every scan routine in the source. -/
def normalizeBindings : BindingVal → List (Option Binding)
  | .absent => [none]
  | .single b => [some b]
  | .many bs => bs

/-- Extraction of alias-target ids from one binding value, as in
`checkVariableUsage` (src/code.ts lines 136-148): normalize to a list, keep
entries `b` with `b?.type === 'VARIABLE_ALIAS' && b.id` (non-empty id).
Pure: no side effects. -/
def extractAliasIds (bv : BindingVal) : List String :=
  (normalizeBindings bv).filterMap fun ob =>
    match ob with
    | none => none
    | some b => if b.btype = "VARIABLE_ALIAS" ∧ b.id ≠ "" then some b.id else none

/-- Extraction over a whole `boundVariables` map (all properties). -/
def extractBoundVars (bvs : List (String × BindingVal)) : List String :=
  bvs.flatMap fun p => extractAliasIds p.2

/-- A variable-mode value: either an alias `{type:'VARIABLE_ALIAS', id}` or a
literal (color/float/string/… — the engine never inspects literal payloads,
only the alias discriminator, so literals are collapsed). -/
inductive VarValue where
  | aliasV (id : String)
  | literal
deriving DecidableEq, Repr

/-- A design variable from the host's variable store. -/
structure Variable where
  id : String
  name : String
  variableCollectionId : String
  resolvedType : String
  scopes : List String
  valuesByMode : List (String × VarValue)
  isDeleted : Bool
deriving DecidableEq, Repr

/-- A variable collection. -/
structure VariableCollection where
  id : String
  name : String
  modes : List String
  variableIds : List String
deriving DecidableEq, Repr

/-- The host's variable store (`figma.variables`): the lists behind
`getLocalVariables()` and `getLocalVariableCollections()`. -/
structure VariableStore where
  localVariables : List Variable
  localCollections : List VariableCollection
deriving DecidableEq, Repr

/-- `figma.variables.getLocalVariables`. -/
def getLocalVariables (s : VariableStore) : List Variable :=
  s.localVariables

/-- `figma.variables.getLocalVariableCollections`. -/
def getLocalVariableCollections (s : VariableStore) : List VariableCollection :=
  s.localCollections

/-- `figma.variables.getVariableById`. -/
def getVariableById (s : VariableStore) (vid : String) : Option Variable :=
  s.localVariables.find? fun v => v.id = vid

/-- `figma.variables.getVariableCollectionById`. -/
def getVariableCollectionById (s : VariableStore) (cid : String) : Option VariableCollection :=
  s.localCollections.find? fun c => c.id = cid

/-- Whether an id string starts with the `VariableID:` prefix (the regex
`/^VariableID:/` of the source), computed over the character list so that it
evaluates in the kernel. -/
def hasVarPrefix (idStr : String) : Bool :=
  "VariableID:".data.isPrefixOf idStr.data

/-- `id.replace(/^VariableID:/, '')` (src `getCleanVariableIds` /
`filterUnusedVariables`): strip one leading `VariableID:` prefix. -/
def cleanId (idStr : String) : String :=
  if hasVarPrefix idStr then String.mk (idStr.data.drop 11) else idStr

/-- The id form carrying the `VariableID:` prefix (the spec's "prefixed form"). -/
def prefixedId (idStr : String) : String :=
  if hasVarPrefix idStr then idStr else "VariableID:" ++ idStr

/-- A paint/text/effect style (resolved through `figma.getStyleById`). -/
structure Style where
  id : String
  name : String
  boundVariables : Option (List (String × BindingVal))
deriving DecidableEq, Repr

/-- `figma.getStyleById` over an explicit style registry. -/
def getStyleById (reg : List Style) (sid : String) : Option Style :=
  reg.find? fun st => st.id = sid

/-- The fixed list of bindable surface names the scanners enumerate
(`BINDABLE_PROPERTIES` in all three source variants). -/
def BINDABLE_PROPERTIES : List String :=
  ["fills", "strokes", "effects", "opacity", "layoutGrids", "componentProperties"]

/-- A document node.  Fields mirror the duck-typed surfaces the source reads:
  * `boundVariables`: the node-level `node.boundVariables` map (`none` when the
    node has no such map);
  * `surfaceBoundVars`: for each property name `p` with a `node[p].boundVariables`
    map (the `BINDABLE_PROPERTIES` access path `(node as any)[prop]?.boundVariables`),
    that map; a property absent from this list behaves as
    `node[p]?.boundVariables` being undefined;
  * `componentProperties`: `node.componentProperties`, each entry carrying its
    own optional `boundVariables` map;
  * `textStyleId`, `styles`: style references resolved through the registry;
  * `mainComponent`: an INSTANCE node's reference to its main component;
  * `children`: the child nodes. -/
inductive Node where
  | mk (id : String)
       (ntype : String)
       (boundVariables : Option (List (String × BindingVal)))
       (surfaceBoundVars : List (String × List (String × BindingVal)))
       (componentProperties : Option (List (String × Option (List (String × BindingVal)))))
       (textStyleId : Option String)
       (styles : Option (List (String × String)))
       (mainComponent : Option Node)
       (children : List Node)

/-- `Object.values(properties)` extraction over `componentProperties` entries
(src/code.ts lines 118-132). -/
def extractComponentProps (cps : List (String × Option (List (String × BindingVal)))) : List String :=
  cps.flatMap fun p =>
    match p.2 with
    | some m => extractBoundVars m
    | none => []

/-- `checkVariableUsage` (src/code.ts lines 111-188): ids added to `usedVars`
by one call, in source order.  Checks, in order: the INSTANCE branch
(recursion into `mainComponent` plus `componentProperties`), the
`BINDABLE_PROPERTIES` surfaces, and the TEXT branch (bound text style through
the registry, then the `fills`/`effects` surfaces again). -/
def checkVariableUsage (reg : List Style) : Node → List String
  | .mk _ ntype _ surfaces compProps tsid _ mc _ =>
    (if ntype = "INSTANCE" then
      match mc with
      | some m =>
        checkVariableUsage reg m ++
          (match compProps with
           | some cps => extractComponentProps cps
           | none => [])
      | none => []
    else []) ++
    (BINDABLE_PROPERTIES.flatMap fun prop =>
      match surfaces.find? (fun p => p.1 = prop) with
      | some pm => extractBoundVars pm.2
      | none => []) ++
    (if ntype = "TEXT" then
      (match tsid with
       | some sid =>
         if sid = "" then []
         else
           match getStyleById reg sid with
           | some st =>
             (match st.boundVariables with
              | some m => extractBoundVars m
              | none => [])
           | none => []
       | none => []) ++
      (["fills", "effects"].flatMap fun prop =>
        match surfaces.find? (fun p => p.1 = prop) with
        | some pm => extractBoundVars pm.2
        | none => [])
    else [])

mutual

/-- One iteration of the `scanNodes` loop body (src/code.ts lines 85-105):
for an INSTANCE node check its main component, then check the node itself,
then recurse into children. -/
def scanNode (reg : List Style) : Node → List String
  | n@(.mk _ ntype _ _ _ _ _ mc ch) =>
    (if ntype = "INSTANCE" then
      match mc with
      | some m => checkVariableUsage reg m
      | none => []
    else []) ++
    checkVariableUsage reg n ++
    scanNodes reg ch

/-- `scanNodes` (src/code.ts lines 84-106): depth-first scan of a node list,
returning the ids added to the usage set. -/
def scanNodes (reg : List Style) : List Node → List String
  | [] => []
  | n :: rest => scanNode reg n ++ scanNodes reg rest

end

/-- `checkVariableUsage` of src/unnamed/part_000 (lines 59-220): same purpose
as the src/code.ts variant but additionally iterates the node-level
`boundVariables` map first and resolves the `styles` map; ids in source order.
The `if (!node || !node.id) return` guard is the empty-id check. -/
def checkVariableUsageP0 (reg : List Style) : Node → List String
  | .mk nid ntype bv surfaces compProps tsid styles mc _ =>
    if nid = "" then []
    else
      (match bv with
       | some m => extractBoundVars m
       | none => []) ++
      (if ntype = "INSTANCE" then
        (match mc with
         | some m => checkVariableUsageP0 reg m
         | none => []) ++
        (match compProps with
         | some cps => extractComponentProps cps
         | none => [])
      else []) ++
      (if ntype = "TEXT" then
        (match tsid with
         | some sid =>
           if sid = "" then []
           else
             match getStyleById reg sid with
             | some st =>
               (match st.boundVariables with
                | some m => extractBoundVars m
                | none => [])
             | none => []
         | none => []) ++
        (["fills", "effects"].flatMap fun prop =>
          match surfaces.find? (fun p => p.1 = prop) with
          | some pm => extractBoundVars pm.2
          | none => [])
      else []) ++
      (BINDABLE_PROPERTIES.flatMap fun prop =>
        match surfaces.find? (fun p => p.1 = prop) with
        | some pm => extractBoundVars pm.2
        | none => []) ++
      (match styles with
       | some sm =>
         sm.flatMap fun p =>
           match getStyleById reg p.2 with
           | some st =>
             (match st.boundVariables with
              | some m => extractBoundVars m
              | none => [])
           | none => []
       | none => [])

mutual

/-- One iteration of part_000's `scanNodes` loop body (lines 35-54). -/
def scanNodeP0 (reg : List Style) : Node → List String
  | n@(.mk _ ntype _ _ _ _ _ mc ch) =>
    (if ntype = "INSTANCE" then
      match mc with
      | some m => checkVariableUsageP0 reg m
      | none => []
    else []) ++
    checkVariableUsageP0 reg n ++
    scanNodesP0 reg ch

/-- `scanNodes` of src/unnamed/part_000 (lines 33-55). -/
def scanNodesP0 (reg : List Style) : List Node → List String
  | [] => []
  | n :: rest => scanNodeP0 reg n ++ scanNodesP0 reg rest

end

/-- `checkNodeBindings` (src/code.ts lines 441-458, identical in the other
variants): does the node's `boundVariables` map hold any entry whose `id`
equals `variableId`?  Note the predicate is `b?.id === variableId` — no
`VARIABLE_ALIAS` discriminator check. -/
def checkNodeBindings (node : Node) (variableId : String) : Bool :=
  match node with
  | .mk _ _ bv _ _ _ _ _ _ =>
    match bv with
    | none => false
    | some boundVars =>
      boundVars.any fun p =>
        match p.2 with
        | .absent => false
        | binding => (normalizeBindings binding).any fun ob =>
            match ob with
            | some b => b.id = variableId
            | none => false

/-- The text-style sweep shared by `getTrulyUnusedVariables` and the
start-search handlers: ids bound in local text styles. -/
def textStyleUsedIds (textStyles : List Style) : List String :=
  textStyles.flatMap fun st =>
    match st.boundVariables with
    | some m => extractBoundVars m
    | none => []

/-! ## Variable graph resolver (src/unnamed/part_000) -/

/-- The per-candidate test inside `checkVariableReferences`
(src/unnamed/part_000 lines 519-535): `otherVarId` is counted when it differs
from `variableId`, resolves in the store, and one of its mode values is
`{type:'VARIABLE_ALIAS', id: variableId}` (exact id equality, no prefix
handling on this path). -/
def referencesId (store : VariableStore) (variableId otherVarId : String) : Bool :=
  if otherVarId = variableId then false
  else
    match getVariableById store otherVarId with
    | none => false
    | some otherVar =>
      otherVar.valuesByMode.any fun p =>
        match p.2 with
        | .aliasV tid => tid = variableId
        | .literal => false

/-- `checkVariableReferences` (src/unnamed/part_000 lines 514-542): the ids,
drawn from the given collections' `variableIds`, of variables whose value in
some mode is an alias pointing at `variableId`. -/
def checkVariableReferences (store : VariableStore) (variableId : String)
    (collections : List VariableCollection) : List String :=
  (collections.flatMap fun c => c.variableIds).filter fun oid =>
    referencesId store variableId oid

/-- One full pass of the fixed-point loop in the start-search handler
(src/unnamed/part_000 lines 955-972): add, for every id already in the set,
every variable that references it. -/
def expandOnce (store : VariableStore) (collections : List VariableCollection)
    (s : Finset String) : Finset String :=
  s ∪ s.biUnion fun varId => (checkVariableReferences store varId collections).toFinset

/-- All candidate ids a pass can ever add: the ids listed by the collections. -/
def refsPool (collections : List VariableCollection) : Finset String :=
  (collections.flatMap fun c => c.variableIds).toFinset

/-- The `while (foundNewVariables)` loop, with explicit fuel: stop on the
first pass that adds nothing new. -/
def expandFuel (store : VariableStore) (collections : List VariableCollection) :
    Nat → Finset String → Finset String
  | 0, s => s
  | n + 1, s =>
    let s2 := expandOnce store collections s
    if s2 = s then s else expandFuel store collections n s2

/-- `transitiveUsedVars` as computed by the start-search handler: the loop runs
until a pass adds nothing; `refsPool.card + 1` passes always suffice
(each earlier pass strictly grows the set inside the finite pool). -/
def transitiveClosure (store : VariableStore) (collections : List VariableCollection)
    (s : Finset String) : Finset String :=
  expandFuel store collections ((refsPool collections).card + 1) s

/-! ## Unused-set calculators -/

/-- The record built by `getAllVariables` (all variants). -/
structure VariableInfo where
  id : String
  name : String
  collection : String
  variableCollectionId : String
  scopes : List String
deriving DecidableEq, Repr

/-- The collection filter of `getAllVariables` (src/code.ts lines 413-414 and
src/unnamed/part_000 lines 372-380):
`!selectedCollections?.length || selectedCollections.includes(v.variableCollectionId)`. -/
def consideredVariables (store : VariableStore) (selectedCollections : List String) :
    List Variable :=
  (getLocalVariables store).filter fun v =>
    selectedCollections.isEmpty || selectedCollections.contains v.variableCollectionId

/-- The per-variable mapping of `getAllVariables`: resolve the owning
collection's display name (JS `||` fallbacks: an empty id becomes
`[invalid-id]`, a missing or empty collection name becomes
`[unknown-collection]`; `v.name` is always a string in the model). -/
def toVariableInfo (store : VariableStore) (v : Variable) : VariableInfo :=
  { id := if v.id = "" then "[invalid-id]" else v.id
    name := v.name
    collection :=
      match getVariableCollectionById store v.variableCollectionId with
      | some c => if c.name = "" then "[unknown-collection]" else c.name
      | none => "[unknown-collection]"
    variableCollectionId := v.variableCollectionId
    scopes := v.scopes }

/-- `getAllVariables` (src/code.ts lines 408-436, src/unnamed/part_000 lines
357-409): filter by selected collections, then map to `VariableInfo`. -/
def getAllVariables (store : VariableStore) (selectedCollections : List String) :
    List VariableInfo :=
  (consideredVariables store selectedCollections).map (toVariableInfo store)

/-- `filterUnusedVariables` (src/select-unused-variables/code.ts lines
1018-1056): keep the non-deleted variables for which neither the stored id nor
the id with the `VariableID:` prefix stripped is in `usedIds`. -/
def filterUnusedVariables (store : VariableStore) (usedIds : List String) :
    List Variable :=
  (getLocalVariables store).filter fun v =>
    if v.isDeleted then false
    else
      let originalId := v.id
      let stripped := cleanId v.id
      let isUsed := usedIds.contains originalId || usedIds.contains stripped
      !isUsed

/-- The result rows the search paths report to the UI. -/
structure VariableResult where
  name : String
  collection : String
  id : String
deriving DecidableEq, Repr

/-- The unused-variable filter at the end of `findUnusedVariables`
(src/code.ts lines 640-654): variables of the considered set whose exact id is
not in the used-id set (no prefix handling on this path), rendered with the
collection display name (`'No Collection'` fallback). -/
def findUnusedVariablesFilter (store : VariableStore) (vars : List VariableInfo)
    (usedVariableIds : List String) : List VariableResult :=
  (vars.filter fun v => !usedVariableIds.contains v.id).map fun v =>
    { name := v.name
      collection :=
        match getVariableCollectionById store v.variableCollectionId with
        | some c => if c.name = "" then "No Collection" else c.name
        | none => "No Collection"
      id := v.id }

/-! ## The part_000 start-search pipeline -/

/-- The host-owned world the plugin reads (and, on the deletion and
debug-scaffolding paths, writes): the variable store, the page trees
(`figma.root.children`, one entry per page holding that page's children),
the style registry, the local text styles, and a counter standing in for the
host's id generator for newly created entities. -/
structure PluginState where
  store : VariableStore
  pages : List (List Node)
  styleRegistry : List Style
  localTextStyles : List Style
  nextId : Nat

/-- `figma.variables.createVariable(name, collectionId, type)` followed by
`setValueForMode`: the host appends the variable to the store and registers
its id in the owning collection; ids are host-generated (modelled by the
`nextId` counter). -/
def createVariable (st : PluginState) (nm colId vtype modeId : String)
    (value : VarValue) : PluginState :=
  let vid := "VariableID:test:" ++ toString st.nextId
  let newVar : Variable :=
    { id := vid, name := nm, variableCollectionId := colId, resolvedType := vtype
      scopes := [], valuesByMode := [(modeId, value)], isDeleted := false }
  { st with
    store :=
      { st.store with
        localVariables := st.store.localVariables ++ [newVar]
        localCollections := st.store.localCollections.map fun c =>
          if c.id = colId then { c with variableIds := c.variableIds ++ [vid] } else c }
    nextId := st.nextId + 1 }

/-- The five named test variables of `createTestVariables`. -/
def testVarNames : List String :=
  ["Primary Color", "Secondary Color", "Tertiary Color", "Background Color", "Accent Color"]

/-- `createTestVariables` (src/unnamed/part_000 lines 585-662), the debug
scaffolding run by the start-search handler when the file has no variables:
ensure a `Test Variables` collection exists, then create the five named color
variables plus `Unused Test Color` when missing (color payloads collapsed to
`literal`). -/
def createTestVariables (st : PluginState) : PluginState :=
  let st1 :=
    match (getLocalVariableCollections st.store).find? (fun c => c.name = "Test Variables") with
    | some _ => st
    | none =>
      let cid := "VariableCollectionId:test:" ++ toString st.nextId
      { st with
        store :=
          { st.store with
            localCollections := st.store.localCollections ++
              [{ id := cid, name := "Test Variables", modes := ["mode:default"], variableIds := [] }] }
        nextId := st.nextId + 1 }
  match (getLocalVariableCollections st1.store).find? (fun c => c.name = "Test Variables") with
  | none => st1
  | some testCollection =>
    let modeId := testCollection.modes.headD "mode:default"
    (testVarNames ++ ["Unused Test Color"]).foldl
      (fun acc nm =>
        if (getLocalVariables acc.store).any
            (fun v => v.name = nm && v.variableCollectionId = testCollection.id)
        then acc
        else createVariable acc nm testCollection.id "COLOR" modeId .literal)
      st1

/-- The stats block of a start-search response. -/
structure SearchStats where
  executionTime : Nat
  totalVariables : Nat
  unusedVariables : Nat
deriving DecidableEq, Repr

/-- The `complete` message posted back to the UI by the part_000 start-search
handler (on its failure path the same `complete` type carries an `error`). -/
structure SearchResponse where
  rtype : String
  vars : List VariableResult
  stats : SearchStats
  error : Option String
deriving DecidableEq, Repr

/-- The direct usage scan run by the part_000 start-search handler: scan every
page's children, then the local text styles. -/
def p0ScanUsedVars (st : PluginState) : List String :=
  (st.pages.flatMap fun pageChildren => scanNodesP0 st.styleRegistry pageChildren) ++
  textStyleUsedIds st.localTextStyles

/-- The `start-search` handler of src/unnamed/part_000 (lines 840-1031):
validate the collections argument (empty/absent ⇒ error response), resolve
`collectionsData`, create test variables when the file has none, gather the
considered variables, scan pages and text styles, expand transitively, filter
unused, inject the debug `(TEST)` row when everything is used, and respond. -/
def startSearchP0 (collections : List String) (st : PluginState) :
    PluginState × SearchResponse :=
  if collections.isEmpty then
    (st, { rtype := "complete", vars := []
           stats := { executionTime := 0, totalVariables := 0, unusedVariables := 0 }
           error := some "Collections inválidas ou vazias" })
  else
    let collectionsData := collections.filterMap fun cid => getVariableCollectionById st.store cid
    let allVariables := getLocalVariables st.store
    let st1 := if allVariables.isEmpty then createTestVariables st else st
    let allVars := getAllVariables st1.store collections
    if allVars.isEmpty then
      (st1, { rtype := "complete", vars := []
              stats := { executionTime := 0, totalVariables := 0, unusedVariables := 0 }
              error := none })
    else
      let usedVarIds := p0ScanUsedVars st1
      let transitiveUsedVars := transitiveClosure st1.store collectionsData usedVarIds.toFinset
      let unusedVariables := allVars.filter fun v => decide (v.id ∉ transitiveUsedVars)
      let unusedVarsForUI := unusedVariables.map fun v => VariableResult.mk v.name v.collection v.id
      let finalVars :=
        if unusedVarsForUI.isEmpty then
          match allVars with
          | [] => unusedVarsForUI
          | tv :: _ => [VariableResult.mk (tv.name ++ " (TEST)") tv.collection tv.id]
        else unusedVarsForUI
      (st1, { rtype := "complete", vars := finalVars
              stats := { executionTime := 0, totalVariables := allVars.length
                         unusedVariables := finalVars.length }
              error := none })

/-! ## Deletion paths -/

/-- `variable.remove()`'s effect on the store when the host accepts it. -/
def removeVariable (store : VariableStore) (vid : String) : VariableStore :=
  { store with localVariables := store.localVariables.filter fun v => v.id ≠ vid }

/-- A `{id, name}` deletion target from a `delete-variables` message. -/
structure DeleteTarget where
  id : String
  name : String
deriving DecidableEq, Repr

/-- The environment's deletion dynamics: for each id, whether a `remove()`
call on it fails (throws, or leaves the variable in place — observationally
the same to the handlers, which either catch the throw or re-query). -/
structure DeleteEnv where
  removeFails : String → Bool

/-- The `delete-result` message. -/
structure DeleteResult where
  rtype : String
  success : Bool
  successCount : Nat
  errorCount : Nat
  errors : List String
  error : Option String
deriving DecidableEq, Repr

/-- The loop of the part_000 `delete-variables` handler (lines 1050-1062):
each target independently — a missing variable is silently skipped, a failing
`remove()` records an error message, a successful one records the id; later
targets are processed regardless of earlier failures.
Returns (store after, deletedIds, errors) in source order. -/
def p0DeleteLoop (env : DeleteEnv) :
    List DeleteTarget → VariableStore → VariableStore × List String × List String
  | [], store => (store, [], [])
  | t :: rest, store =>
    match getVariableById store t.id with
    | none => p0DeleteLoop env rest store
    | some _ =>
      if env.removeFails t.id then
        let (s, d, e) := p0DeleteLoop env rest store
        (s, d, ("Failed to delete variable " ++ t.id) :: e)
      else
        let (s, d, e) := p0DeleteLoop env rest (removeVariable store t.id)
        (s, t.id :: d, e)

/-- The part_000 `delete-variables` handler (lines 1045-1081): run the loop,
then post `delete-result` with `success: true` and the aggregated counts. -/
def p0DeleteVariables (env : DeleteEnv) (targets : List DeleteTarget)
    (store : VariableStore) : VariableStore × DeleteResult :=
  let (s, deletedIds, errors) := p0DeleteLoop env targets store
  (s, { rtype := "delete-result", success := true
        successCount := deletedIds.length, errorCount := errors.length
        errors := errors, error := none })

/-- The loop of the select-unused-variables `delete-variables` handler
(lines 752-781): targets in order; a missing variable or a failed/unverified
`remove()` throws, and the inner `catch` rethrows, so the first failure aborts
the loop.  Returns the store reached and either the processed count or the
error message. -/
def suvDeleteLoop (env : DeleteEnv) :
    List DeleteTarget → VariableStore → VariableStore × Except String Nat
  | [], store => (store, .ok 0)
  | t :: rest, store =>
    match getVariableById store t.id with
    | none => (store, .error ("Variável não encontrada: " ++ t.name ++ " (" ++ t.id ++ ")"))
    | some _ =>
      if env.removeFails t.id then
        (store, .error ("Falha ao excluir variável " ++ t.name))
      else
        let (s, r) := suvDeleteLoop env rest (removeVariable store t.id)
        (s, r.map (· + 1))

/-- The select-unused-variables `delete-variables` handler (lines 743-805):
an empty target list throws; otherwise the loop either completes every target
(response `success: true` with `errors: 0`) or is aborted by its first failure
(response `success: false` carrying only that error, later targets never
attempted). -/
def suvDeleteVariables (env : DeleteEnv) (targets : List DeleteTarget)
    (store : VariableStore) : VariableStore × DeleteResult :=
  if targets.isEmpty then
    (store, { rtype := "delete-result", success := false, successCount := 0
              errorCount := 0, errors := [], error := some "Nenhuma variável para excluir" })
  else
    match suvDeleteLoop env targets store with
    | (s, .ok _) =>
      (s, { rtype := "delete-result", success := true
            successCount := targets.length, errorCount := 0, errors := [], error := none })
    | (s, .error msg) =>
      (s, { rtype := "delete-result", success := false, successCount := 0
            errorCount := 0, errors := [], error := some msg })

/-! ## Safe deletion orchestrator (src/code.ts `safeDeleteVariables`) -/

/-- The host's deletion dynamics for the retry loop of `safeDeleteVariables`:
for each id, after how many `remove()` attempts a re-query of the store first
reports the id absent (`none`: never — a simulated persistent failure; a
throwing `remove()` consumes its attempt and leaves the variable present,
which is the same observable outcome). -/
structure DeletionHost where
  attemptsNeeded : String → Option Nat

/-- Whether the store still holds `vid` after `attemptsMade` remove attempts. -/
def stillExistsAfter (host : DeletionHost) (vid : String) (attemptsMade : Nat) : Bool :=
  match host.attemptsNeeded vid with
  | some n => attemptsMade < n
  | none => true

/-- The `while (deleteAttempts > 0 && !deleted)` loop (src/code.ts lines
262-286): each iteration performs one `remove()` attempt, waits, and re-queries
the store; the variable counts as deleted only when the re-query finds it
absent.  `fuel` starts at 3 (`deleteAttempts`). -/
def deleteAttemptLoop (host : DeletionHost) (vid : String) :
    Nat → Nat → Bool
  | 0, _ => false
  | fuel + 1, attemptsMade =>
    if !(stillExistsAfter host vid (attemptsMade + 1)) then true
    else deleteAttemptLoop host vid fuel (attemptsMade + 1)

/-- One variable's verified deletion attempt: at most 3 attempts. -/
def tryDeleteVariable (host : DeletionHost) (vid : String) : Bool :=
  deleteAttemptLoop host vid 3 0

/-- `safeDeleteVariables` (src/code.ts lines 229-302): per variable — skip it
when it no longer resolves in the store or its collection does not resolve;
otherwise detach (touches node bindings only, not the variable store the loop
re-queries) and run the bounded retry loop; an id enters `deletedIds` only
when a re-query confirmed absence, and each variable is processed regardless
of the preceding ones' outcomes.  Returns `deletedIds` in order. -/
def safeDeleteVariables (host : DeletionHost) :
    List Variable → VariableStore → List String
  | [], _ => []
  | v :: rest, store =>
    match getVariableById store v.id with
    | none => safeDeleteVariables host rest store
    | some _ =>
      match getVariableCollectionById store v.variableCollectionId with
      | none => safeDeleteVariables host rest store
      | some _ =>
        if tryDeleteVariable host v.id then
          v.id :: safeDeleteVariables host rest (removeVariable store v.id)
        else
          safeDeleteVariables host rest store

/-! ## Lemmas about the fixed-point expansion -/

lemma mem_checkVariableReferences {store : VariableStore} {y : String}
    {cols : List VariableCollection} {x : String} :
    x ∈ checkVariableReferences store y cols ↔
      (∃ c ∈ cols, x ∈ c.variableIds) ∧ referencesId store y x = true := by
  simp only [checkVariableReferences, List.mem_filter, List.mem_flatMap]

lemma referencesId_true_iff {store : VariableStore} {y x : String} :
    referencesId store y x = true ↔
      x ≠ y ∧ ∃ vx, getVariableById store x = some vx ∧
        ∃ p ∈ vx.valuesByMode, p.2 = VarValue.aliasV y := by
  unfold referencesId
  split
  · simp_all
  · rename_i hne
    cases hfind : getVariableById store x with
    | none => simp [hfind, hne]
    | some vx =>
      simp only [hfind, List.any_eq_true, Option.some.injEq]
      constructor
      · rintro ⟨p, hp, hval⟩
        refine ⟨hne, vx, rfl, p, hp, ?_⟩
        cases h : p.2 <;> simp [h] at hval ⊢
        exact hval
      · rintro ⟨-, vx2, hvx2, p, hp, hval⟩
        cases hvx2
        exact ⟨p, hp, by simp [hval]⟩

lemma checkVariableReferences_subset_pool {store : VariableStore} {y x : String}
    {cols : List VariableCollection}
    (h : x ∈ checkVariableReferences store y cols) : x ∈ refsPool cols := by
  rcases mem_checkVariableReferences.mp h with ⟨⟨c, hc, hx⟩, -⟩
  simp only [refsPool, List.mem_toFinset, List.mem_flatMap]
  exact ⟨c, hc, hx⟩

lemma mem_expandOnce {store : VariableStore} {cols : List VariableCollection}
    {s : Finset String} {x : String} :
    x ∈ expandOnce store cols s ↔
      x ∈ s ∨ ∃ y ∈ s, x ∈ checkVariableReferences store y cols := by
  simp [expandOnce, Finset.mem_union, Finset.mem_biUnion, List.mem_toFinset]

lemma subset_expandOnce {store : VariableStore} {cols : List VariableCollection}
    {s : Finset String} : s ⊆ expandOnce store cols s :=
  Finset.subset_union_left

lemma expandOnce_subset_union_pool {store : VariableStore}
    {cols : List VariableCollection} {s : Finset String} :
    expandOnce store cols s ⊆ s ∪ refsPool cols := by
  intro x hx
  rcases mem_expandOnce.mp hx with h | ⟨y, -, h⟩
  · exact Finset.mem_union_left _ h
  · exact Finset.mem_union_right _ (checkVariableReferences_subset_pool h)

lemma subset_expandFuel {store : VariableStore} {cols : List VariableCollection} :
    ∀ (n : Nat) (s : Finset String), s ⊆ expandFuel store cols n s := by
  intro n
  induction n with
  | zero => intro s; simp [expandFuel]
  | succ n ih =>
    intro s
    simp only [expandFuel]
    split
    · exact Finset.Subset.refl s
    · exact subset_expandOnce.trans (ih _)

lemma expandFuel_fix {store : VariableStore} {cols : List VariableCollection} :
    ∀ (n : Nat) (s : Finset String), (refsPool cols \ s).card ≤ n →
      expandOnce store cols (expandFuel store cols n s) = expandFuel store cols n s := by
  intro n
  induction n with
  | zero =>
    intro s h
    simp only [expandFuel]
    have hpool : refsPool cols ⊆ s := by
      rw [Nat.le_zero, Finset.card_eq_zero, Finset.sdiff_eq_empty_iff_subset] at h
      exact h
    apply Finset.Subset.antisymm
    · exact expandOnce_subset_union_pool.trans (Finset.union_subset (Finset.Subset.refl s) hpool)
    · exact subset_expandOnce
  | succ n ih =>
    intro s h
    simp only [expandFuel]
    split
    · assumption
    · rename_i hne
      apply ih
      have hss : s ⊂ expandOnce store cols s :=
        Finset.ssubset_iff_subset_ne.mpr ⟨subset_expandOnce, fun hcontra => hne hcontra.symm⟩
      obtain ⟨x, hxin, hxout⟩ := Finset.exists_of_ssubset hss
      have hxpool : x ∈ refsPool cols := by
        rcases mem_expandOnce.mp hxin with hmem | ⟨y, -, hmem⟩
        · exact absurd hmem hxout
        · exact checkVariableReferences_subset_pool hmem
      have hsdiff : refsPool cols \ expandOnce store cols s ⊂ refsPool cols \ s := by
        constructor
        · exact Finset.sdiff_subset_sdiff (Finset.Subset.refl _) hss.subset
        · intro hsub
          have hx1 : x ∈ refsPool cols \ s := Finset.mem_sdiff.mpr ⟨hxpool, hxout⟩
          have hx2 : x ∈ refsPool cols \ expandOnce store cols s := hsub hx1
          exact (Finset.mem_sdiff.mp hx2).2 hxin
      have := Finset.card_lt_card hsdiff
      omega

lemma expandFuel_min {store : VariableStore} {cols : List VariableCollection}
    {T : Finset String}
    (hclosed : ∀ y ∈ T, ∀ x, x ∈ checkVariableReferences store y cols → x ∈ T) :
    ∀ (n : Nat) (s : Finset String), s ⊆ T → expandFuel store cols n s ⊆ T := by
  intro n
  induction n with
  | zero => intro s hs; simpa [expandFuel] using hs
  | succ n ih =>
    intro s hs
    simp only [expandFuel]
    split
    · exact hs
    · apply ih
      intro x hx
      rcases mem_expandOnce.mp hx with h | ⟨y, hy, h⟩
      · exact hs h
      · exact hclosed y (hs hy) x h

lemma subset_transitiveClosure {store : VariableStore} {cols : List VariableCollection}
    {s : Finset String} : s ⊆ transitiveClosure store cols s :=
  subset_expandFuel _ _

lemma transitiveClosure_fix {store : VariableStore} {cols : List VariableCollection}
    {s : Finset String} :
    expandOnce store cols (transitiveClosure store cols s) = transitiveClosure store cols s := by
  apply expandFuel_fix
  calc (refsPool cols \ s).card ≤ (refsPool cols).card :=
        Finset.card_le_card (Finset.sdiff_subset)
    _ ≤ (refsPool cols).card + 1 := Nat.le_succ _

lemma transitiveClosure_closed {store : VariableStore} {cols : List VariableCollection}
    {s : Finset String} {y x : String} (hy : y ∈ transitiveClosure store cols s)
    (hx : x ∈ checkVariableReferences store y cols) :
    x ∈ transitiveClosure store cols s := by
  have : x ∈ expandOnce store cols (transitiveClosure store cols s) :=
    mem_expandOnce.mpr (Or.inr ⟨y, hy, hx⟩)
  rwa [transitiveClosure_fix] at this

lemma transitiveClosure_min {store : VariableStore} {cols : List VariableCollection}
    {s T : Finset String} (hs : s ⊆ T)
    (hclosed : ∀ y ∈ T, ∀ x, x ∈ checkVariableReferences store y cols → x ∈ T) :
    transitiveClosure store cols s ⊆ T :=
  expandFuel_min hclosed _ _ hs

/-- The node-level `boundVariables` map. -/
def Node.boundVariables : Node → Option (List (String × BindingVal))
  | .mk _ _ bv _ _ _ _ _ _ => bv

lemma checkNodeBindings_entry_iff (bv : BindingVal) (vid : String) :
    ((match bv with
      | BindingVal.absent => false
      | binding => (normalizeBindings binding).any fun ob =>
          match ob with
          | some b => b.id = vid
          | none => false) = true) ↔
      ∃ b, some b ∈ normalizeBindings bv ∧ b.id = vid := by
  cases bv with
  | absent => simp [normalizeBindings]
  | single b =>
    simp only [normalizeBindings, List.any_eq_true, List.mem_singleton]
    constructor
    · rintro ⟨ob, rfl, h⟩
      exact ⟨b, rfl, by simpa using h⟩
    · rintro ⟨bb, hbb, h⟩
      injection hbb with hbb2
      subst hbb2
      exact ⟨some bb, rfl, by simpa using h⟩
  | many bs =>
    simp only [normalizeBindings, List.any_eq_true]
    constructor
    · rintro ⟨ob, hob, h⟩
      obtain _ | bb := ob
      · simp at h
      · exact ⟨bb, hob, by simpa using h⟩
    · rintro ⟨bb, hbb, h⟩
      exact ⟨some bb, hbb, by simpa using h⟩

/-! ## Claim theorems -/

/-- C7: the transitive-expansion fixed-point loop terminates on every finite
variable store, cycles included: each pass only adds ids drawn from the
finite pool of collection-listed variable ids, and after at most
`(refsPool cols).card + 1` passes (the fuel `transitiveClosure` runs with)
a pass adds nothing new — the state `transitiveClosure` stops in is a true
fixed point of `expandOnce`, which is exactly the loop's exit condition
`foundNewVariables = false`, so the `while` loop cannot run forever. -/
theorem transitive_expansion_terminates (store : VariableStore)
    (cols : List VariableCollection) (s : Finset String) :
    expandOnce store cols s ⊆ s ∪ refsPool cols ∧
      expandOnce store cols (transitiveClosure store cols s) =
        transitiveClosure store cols s :=
  ⟨expandOnce_subset_union_pool, transitiveClosure_fix⟩

/-- C8: binding normalization is representation-insensitive and total on
absent input: extracting alias targets from a single binding object and from
the one-element list holding it yields the same output, and extracting from a
null/undefined binding value yields the empty sequence.  `extractAliasIds` is
a pure function, so there are no side effects. -/
theorem extractAliasIds_normalization (b : Binding) :
    extractAliasIds (BindingVal.single b) = extractAliasIds (BindingVal.many [some b]) ∧
      extractAliasIds BindingVal.absent = [] :=
  ⟨rfl, rfl⟩

/-- C10: `checkNodeBindings` returns true exactly when some entry of the
node's `boundVariables` map (single object or array element) carries an `id`
equal to `variableId` — with no `VARIABLE_ALIAS` discriminator check — and it
returns false for every node without a `boundVariables` map. -/
theorem checkNodeBindings_spec (node : Node) (variableId : String) :
    (node.boundVariables = none → checkNodeBindings node variableId = false) ∧
    (checkNodeBindings node variableId = true ↔
      ∃ bvs, node.boundVariables = some bvs ∧
        ∃ p ∈ bvs, ∃ b, some b ∈ normalizeBindings p.2 ∧ b.id = variableId) := by
  obtain ⟨nid, ntype, bv, surfaces, cps, tsid, styles, mc, ch⟩ := node
  constructor
  · intro h
    simp only [Node.boundVariables] at h
    simp [checkNodeBindings, h]
  · cases bv with
    | none =>
      simp [checkNodeBindings, Node.boundVariables]
    | some bvs =>
      simp only [checkNodeBindings, Node.boundVariables, List.any_eq_true,
        Option.some.injEq]
      constructor
      · rintro ⟨p, hp, h⟩
        exact ⟨bvs, rfl, p, hp, (checkNodeBindings_entry_iff p.2 variableId).mp h⟩
      · rintro ⟨bvs2, hbvs2, p, hp, h⟩
        cases hbvs2
        exact ⟨p, hp, (checkNodeBindings_entry_iff p.2 variableId).mpr h⟩

/-- Witness for C10 at concrete inputs: a node without a `boundVariables` map
yields false, and a node whose only binding carries the non-alias
discriminator `"VARIABLE"` with the searched id yields true. -/
theorem checkNodeBindings_spec_witness :
    checkNodeBindings (Node.mk "n0" "RECTANGLE" none [] none none none none []) "x" = false ∧
    checkNodeBindings
      (Node.mk "n1" "RECTANGLE" (some [("fills", BindingVal.single ⟨"VARIABLE", "x"⟩)])
        [] none none none none []) "x" = true :=
  ⟨(checkNodeBindings_spec _ "x").1 rfl,
   (checkNodeBindings_spec _ "x").2.mpr
     ⟨[("fills", BindingVal.single ⟨"VARIABLE", "x"⟩)], rfl,
      ("fills", BindingVal.single ⟨"VARIABLE", "x"⟩), by decide,
      ⟨"VARIABLE", "x"⟩, by decide, rfl⟩⟩

lemma deleteAttemptLoop_some_iff (host : DeletionHost) (vid : String) (n : Nat)
    (hn : host.attemptsNeeded vid = some n) :
    ∀ (fuel k : Nat), deleteAttemptLoop host vid fuel k = true ↔
      (1 ≤ fuel ∧ n ≤ k + fuel) := by
  intro fuel
  induction fuel with
  | zero => intro k; simp [deleteAttemptLoop]
  | succ f ih =>
    intro k
    simp only [deleteAttemptLoop, stillExistsAfter, hn]
    by_cases hc : k + 1 < n
    · rw [if_neg (by simp [hc])]
      rw [ih (k + 1)]
      constructor
      · rintro ⟨h1, h2⟩; constructor <;> omega
      · rintro ⟨-, h2⟩; constructor <;> omega
    · rw [if_pos (by simp [hc])]
      simp only [true_iff]
      constructor <;> omega

/-- `tryDeleteVariable` succeeds exactly when a re-query first reports the id
absent within the 3 bounded attempts. -/
lemma tryDeleteVariable_iff (host : DeletionHost) (vid : String) :
    tryDeleteVariable host vid = true ↔
      ∃ n, host.attemptsNeeded vid = some n ∧ n ≤ 3 := by
  cases h : host.attemptsNeeded vid with
  | none =>
    simp [tryDeleteVariable, deleteAttemptLoop, stillExistsAfter, h]
  | some n =>
    rw [tryDeleteVariable, deleteAttemptLoop_some_iff host vid n h 3 0]
    simp only [h, Option.some.injEq]
    constructor
    · rintro ⟨-, h2⟩; exact ⟨n, rfl, by omega⟩
    · rintro ⟨n2, hn2, hle⟩; cases hn2; exact ⟨by omega, by omega⟩

/-- C6: the deletion orchestrator reports a variable deleted only when a
re-query of the store confirmed absence within the bounded 3 attempts
(first conjunct characterizes the retry loop, second says every id in
`deletedIds` passed it), and a variable whose attempts are exhausted is
marked failed without affecting the processing of the remaining variables
(third conjunct: the run is literally the run without it).  The inter-attempt
delays are modelled as no-ops. -/
theorem safeDeleteVariables_spec :
    (∀ (host : DeletionHost) (vid : String),
        tryDeleteVariable host vid = true ↔
          ∃ n, host.attemptsNeeded vid = some n ∧ n ≤ 3) ∧
    (∀ (host : DeletionHost) (vs : List Variable) (store : VariableStore) (vid : String),
        vid ∈ safeDeleteVariables host vs store → tryDeleteVariable host vid = true) ∧
    (∀ (host : DeletionHost) (v : Variable) (rest : List Variable) (store : VariableStore),
        tryDeleteVariable host v.id = false →
          safeDeleteVariables host (v :: rest) store = safeDeleteVariables host rest store) := by
  refine ⟨fun host vid => tryDeleteVariable_iff host vid, ?_, ?_⟩
  · intro host vs
    induction vs with
    | nil => intro store vid h; simp [safeDeleteVariables] at h
    | cons v rest ih =>
      intro store vid h
      simp only [safeDeleteVariables] at h
      split at h
      · exact ih _ _ h
      · split at h
        · exact ih _ _ h
        · split at h
          · rename_i hdel
            rcases List.mem_cons.mp h with rfl | hmem
            · exact hdel
            · exact ih _ _ hmem
          · exact ih _ _ h
  · intro host v rest store hfail
    simp only [safeDeleteVariables]
    split
    · rfl
    · split
      · rfl
      · rw [if_neg (by simp [hfail])]

/-- Concrete host for the C6 witness: `v2` can never be removed, `v3` needs
all 3 attempts, everything else succeeds on the first. -/
def c6Host : DeletionHost :=
  { attemptsNeeded := fun i => if i = "v2" then none else if i = "v3" then some 3 else some 1 }

def c6Var (i : String) : Variable :=
  { id := i, name := i, variableCollectionId := "c", resolvedType := "COLOR"
    scopes := [], valuesByMode := [], isDeleted := false }

def c6Store : VariableStore :=
  { localVariables := [c6Var "v1", c6Var "v2", c6Var "v3"]
    localCollections := [{ id := "c", name := "C", modes := [], variableIds := [] }] }

/-- Witness for C6: dropping the persistently failing `v2` does not change the
run, and `v3` (absent exactly after its third attempt) passes the retry loop. -/
theorem safeDeleteVariables_spec_witness :
    safeDeleteVariables c6Host [c6Var "v2", c6Var "v3"] c6Store =
      safeDeleteVariables c6Host [c6Var "v3"] c6Store ∧
    tryDeleteVariable c6Host "v3" = true :=
  ⟨safeDeleteVariables_spec.2.2 c6Host (c6Var "v2") [c6Var "v3"] c6Store (by decide),
   (safeDeleteVariables_spec.1 c6Host "v3").mpr ⟨3, by decide, by decide⟩⟩

/-- Concrete store for the C2 counterexample: a live variable whose stored id
carries no prefix, and a deleted variable. -/
def c2VarRaw : Variable :=
  { id := "123", name := "raw", variableCollectionId := "c", resolvedType := "COLOR"
    scopes := [], valuesByMode := [], isDeleted := false }

def c2VarDel : Variable :=
  { id := "VariableID:9", name := "gone", variableCollectionId := "c", resolvedType := "COLOR"
    scopes := [], valuesByMode := [], isDeleted := true }

def c2Store : VariableStore :=
  { localVariables := [c2VarRaw, c2VarDel], localCollections := [] }

/-- Counterexample to C2 as stated, at concrete inputs: (i) the variable with
stored id `"123"` is reported unused although its prefixed form
`"VariableID:123"` is in the usage set (the code never tests the prefixed
form of an unprefixed stored id); (ii) the deleted variable is not reported
unused although neither of its id forms is in the (empty) usage set. -/
theorem filterUnusedVariables_counterexample :
    (c2VarRaw ∈ filterUnusedVariables c2Store ["VariableID:123"] ∧
      prefixedId c2VarRaw.id ∈ ["VariableID:123"]) ∧
    (c2VarDel ∉ filterUnusedVariables c2Store [] ∧
      prefixedId c2VarDel.id ∉ ([] : List String) ∧
      cleanId c2VarDel.id ∉ ([] : List String)) := by
  refine ⟨⟨?_, ?_⟩, ?_, ?_, ?_⟩ <;> decide

/-- C2 amended: for every variable that is not flagged deleted and whose
stored id carries the `VariableID:` prefix, the unused-set calculation
reports it unused iff neither its prefixed nor its unprefixed id form appears
in the usage set.  (As the counterexample shows, the claim fails as stated
for deleted variables — silently skipped — and for variables whose stored id
lacks the prefix, where only the stored and stripped forms are tested.) -/
theorem filterUnusedVariables_spec (store : VariableStore) (usedIds : List String)
    (v : Variable) (hv : v ∈ getLocalVariables store) (hdel : v.isDeleted = false)
    (hpre : hasVarPrefix v.id = true) :
    v ∈ filterUnusedVariables store usedIds ↔
      prefixedId v.id ∉ usedIds ∧ cleanId v.id ∉ usedIds := by
  have hpref : prefixedId v.id = v.id := by simp [prefixedId, hpre]
  rw [hpref]
  simp only [filterUnusedVariables, List.mem_filter, hv, true_and]
  simp [hdel, not_or, List.elem_iff]

/-- Concrete inputs for the C2 witness: one live variable with a prefixed id. -/
def c2VarPre : Variable :=
  { id := "VariableID:7", name := "pre", variableCollectionId := "c", resolvedType := "COLOR"
    scopes := [], valuesByMode := [], isDeleted := false }

def c2StoreW : VariableStore :=
  { localVariables := [c2VarPre], localCollections := [] }

/-- Witness for C2 at concrete inputs: the prefixed-id variable is reported
unused when the usage set holds neither of its id forms. -/
theorem filterUnusedVariables_spec_witness :
    c2VarPre ∈ filterUnusedVariables c2StoreW ["8"] :=
  (filterUnusedVariables_spec c2StoreW ["8"] c2VarPre (by decide) (by decide)
    (by decide)).mpr (by decide)

/-- Concrete state for the C4 counterexample: one (unused) variable in one
collection, an empty page. -/
def c4Var : Variable :=
  { id := "u1", name := "U1", variableCollectionId := "colX", resolvedType := "COLOR"
    scopes := [], valuesByMode := [], isDeleted := false }

def c4State : PluginState :=
  { store :=
      { localVariables := [c4Var]
        localCollections := [{ id := "colX", name := "X", modes := ["m"], variableIds := ["u1"] }] }
    pages := [[]], styleRegistry := [], localTextStyles := [], nextId := 0 }

/-- Counterexample to C4 as stated, at a concrete input: with an empty
collections filter the part_000 start-search handler does not scan the
document and does not consider the store's variables — it responds with an
error message and an empty result, although the store holds an unused
variable the claim says would be reported. -/
theorem startSearchP0_empty_filter_counterexample :
    (startSearchP0 [] c4State).2.error = some "Collections inválidas ou vazias" ∧
    (startSearchP0 [] c4State).2.vars = [] ∧
    c4Var ∈ getLocalVariables c4State.store := by
  refine ⟨rfl, rfl, by decide⟩

/-- C4 amended: the `getAllVariables` filter behaves as claimed — an
empty/absent filter considers every variable in the store, a non-empty filter
considers exactly the variables whose `variableCollectionId` is in it — and
the unused output of the src/code.ts `findUnusedVariables` path draws only
from the considered variables (so other collections appear in neither set);
but the part_000 `start-search` handler rejects an empty/absent collections
argument with an error response instead of scanning everything. -/
theorem collectionFilter_spec :
    (∀ (store : VariableStore) (v : Variable),
        v ∈ consideredVariables store [] ↔ v ∈ getLocalVariables store) ∧
    (∀ (store : VariableStore) (sel : List String) (v : Variable), sel ≠ [] →
        (v ∈ consideredVariables store sel ↔
          v ∈ getLocalVariables store ∧ v.variableCollectionId ∈ sel)) ∧
    (∀ (store : VariableStore) (vis : List VariableInfo) (used : List String)
        (r : VariableResult), r ∈ findUnusedVariablesFilter store vis used →
          r.id ∈ vis.map VariableInfo.id) ∧
    (∀ (st : PluginState), ((startSearchP0 [] st).2.error).isSome = true) := by
  refine ⟨?_, ?_, ?_, ?_⟩
  · intro store v
    simp [consideredVariables, List.mem_filter]
  · intro store sel v hsel
    have : sel.isEmpty = false := by
      cases sel with
      | nil => exact absurd rfl hsel
      | cons a l => rfl
    simp [consideredVariables, List.mem_filter, this, List.elem_iff]
  · intro store vis used r hr
    simp only [findUnusedVariablesFilter, List.mem_map, List.mem_filter] at hr
    rcases hr with ⟨v, ⟨hv, -⟩, rfl⟩
    exact List.mem_map.mpr ⟨v, hv, rfl⟩
  · intro st
    rfl

/-- Concrete store for the C4 witness: variables in two collections. -/
def c4WVarA : Variable :=
  { id := "a1", name := "A1", variableCollectionId := "colA", resolvedType := "COLOR"
    scopes := [], valuesByMode := [], isDeleted := false }

def c4WVarB : Variable :=
  { id := "b1", name := "B1", variableCollectionId := "colB", resolvedType := "COLOR"
    scopes := [], valuesByMode := [], isDeleted := false }

def c4WStore : VariableStore :=
  { localVariables := [c4WVarA, c4WVarB], localCollections := [] }

/-- Witness for C4 at concrete inputs: filtering on `colA` keeps the `colA`
variable and drops the `colB` one. -/
theorem collectionFilter_spec_witness :
    c4WVarA ∈ consideredVariables c4WStore ["colA"] ∧
    c4WVarB ∉ consideredVariables c4WStore ["colA"] :=
  ⟨(collectionFilter_spec.2.1 c4WStore ["colA"] c4WVarA (by decide)).mpr
     ⟨by decide, by decide⟩,
   fun h => by
    have := (collectionFilter_spec.2.1 c4WStore ["colA"] c4WVarB (by decide)).mp h
    exact absurd this.2 (by decide)⟩

/-- Concrete batch for C5: remove attempts on `v2` fail persistently, the
other targets delete fine. -/
def c5Env : DeleteEnv := { removeFails := fun i => i = "v2" }

def c5Var (i : String) : Variable :=
  { id := i, name := i, variableCollectionId := "c", resolvedType := "COLOR"
    scopes := [], valuesByMode := [], isDeleted := false }

def c5Store : VariableStore :=
  { localVariables := [c5Var "v1", c5Var "v2", c5Var "v3"], localCollections := [] }

def c5Targets : List DeleteTarget := [⟨"v1", "V1"⟩, ⟨"v2", "V2"⟩, ⟨"v3", "V3"⟩]

/-- Counterexample to C5 as stated, at a concrete input: in the
select-unused-variables `delete-variables` handler a persistent failure on
target 2 aborts the whole batch — the response is `success:false` with no
per-target counts (the claim expects `{success:2, errors:1}`), and target 3,
whose removal would succeed, is never attempted: it is still in the final
store even though target 1 was already removed. -/
theorem suvDeleteVariables_abort_counterexample :
    (suvDeleteVariables c5Env c5Targets c5Store).2.success = false ∧
    (suvDeleteVariables c5Env c5Targets c5Store).2.successCount = 0 ∧
    (getVariableById (suvDeleteVariables c5Env c5Targets c5Store).1 "v3").isSome = true ∧
    c5Env.removeFails "v3" = false ∧
    (getVariableById (suvDeleteVariables c5Env c5Targets c5Store).1 "v1").isSome = false := by
  refine ⟨?_, ?_, ?_, ?_, ?_⟩ <;> decide

/-- C5 amended: the part_000 `delete-variables` handler has the claimed batch
semantics — the response always aggregates per-target outcomes (`success:
true`, a success count and an error count matching the recorded messages),
and a found-but-persistently-failing target contributes exactly one error
while leaving the final store and the success count of the remaining batch
untouched — whereas the select-unused-variables handler aborts the whole
batch at its first failure (see the counterexample). -/
theorem p0DeleteVariables_spec :
    (∀ (env : DeleteEnv) (targets : List DeleteTarget) (store : VariableStore),
        (p0DeleteVariables env targets store).2.success = true ∧
        (p0DeleteVariables env targets store).2.errorCount =
          (p0DeleteVariables env targets store).2.errors.length) ∧
    (∀ (env : DeleteEnv) (t : DeleteTarget) (rest : List DeleteTarget)
        (store : VariableStore),
        (getVariableById store t.id).isSome = true → env.removeFails t.id = true →
          (p0DeleteVariables env (t :: rest) store).1 =
            (p0DeleteVariables env rest store).1 ∧
          (p0DeleteVariables env (t :: rest) store).2.successCount =
            (p0DeleteVariables env rest store).2.successCount ∧
          (p0DeleteVariables env (t :: rest) store).2.errorCount =
            (p0DeleteVariables env rest store).2.errorCount + 1) := by
  constructor
  · intro env targets store
    rcases h : p0DeleteLoop env targets store with ⟨s, d, e⟩
    simp [p0DeleteVariables, h]
  · intro env t rest store hsome hfail
    rcases Option.isSome_iff_exists.mp hsome with ⟨v, hv⟩
    rcases h : p0DeleteLoop env rest store with ⟨s, d, e⟩
    simp [p0DeleteVariables, p0DeleteLoop, hv, hfail, h]

/-- Witness for C5 at concrete inputs: prepending the failing `v2` to the
batch `[v3]` leaves the final store identical and adds exactly one error. -/
theorem p0DeleteVariables_spec_witness :
    (p0DeleteVariables c5Env (⟨"v2", "V2"⟩ :: [⟨"v3", "V3"⟩]) c5Store).1 =
      (p0DeleteVariables c5Env [⟨"v3", "V3"⟩] c5Store).1 ∧
    (p0DeleteVariables c5Env (⟨"v2", "V2"⟩ :: [⟨"v3", "V3"⟩]) c5Store).2.errorCount =
      (p0DeleteVariables c5Env [⟨"v3", "V3"⟩] c5Store).2.errorCount + 1 :=
  ⟨(p0DeleteVariables_spec.2 c5Env ⟨"v2", "V2"⟩ [⟨"v3", "V3"⟩] c5Store
      (by decide) (by decide)).1,
   (p0DeleteVariables_spec.2 c5Env ⟨"v2", "V2"⟩ [⟨"v3", "V3"⟩] c5Store
      (by decide) (by decide)).2.2⟩

/-- Concrete state for the C9 counterexample: a document with no variables. -/
def c9State : PluginState :=
  { store := { localVariables := [], localCollections := [] }
    pages := [[]], styleRegistry := [], localTextStyles := [], nextId := 0 }

/-- Counterexample to C9 as stated, at a concrete input: on a document with
no variables the part_000 start-search handler — the scan driver — runs
`createTestVariables`, creating a collection and six variables in the host
document, so the scan path is not read-only. -/
theorem startSearchP0_creates_variables_counterexample :
    (getLocalVariables c9State.store).length = 0 ∧
    (getLocalVariables (startSearchP0 ["colX"] c9State).1.store).length = 6 ∧
    (getLocalVariableCollections (startSearchP0 ["colX"] c9State).1.store).length = 1 := by
  refine ⟨rfl, ?_, ?_⟩ <;> decide

/-- C9 amended: whenever the store holds at least one variable, the
start-search operation (and the scan it drives) leaves the host state —
pages, variables, collections, styles — completely unchanged; the usage set
and the posted response are its only effects.  The read-only property fails
as stated only on the debug branch the counterexample exhibits (an empty
store triggers `createTestVariables`). -/
theorem startSearchP0_no_mutation (collections : List String) (st : PluginState)
    (h : st.store.localVariables ≠ []) :
    (startSearchP0 collections st).1 = st := by
  have h1 : (getLocalVariables st.store).isEmpty = false := by
    cases hl : st.store.localVariables with
    | nil => exact absurd hl h
    | cons a l => simp [getLocalVariables, hl]
  unfold startSearchP0
  split
  · rfl
  · simp only [h1, Bool.false_eq_true, if_false]
    split <;> rfl

def c9WVar : Variable :=
  { id := "w1", name := "W1", variableCollectionId := "colA", resolvedType := "COLOR"
    scopes := [], valuesByMode := [], isDeleted := false }

def c9WState : PluginState :=
  { store := { localVariables := [c9WVar], localCollections := [] }
    pages := [[]], styleRegistry := [], localTextStyles := [], nextId := 0 }

/-- Witness for C9 at a concrete input: with one variable present the
start-search pass returns the state unchanged. -/
theorem startSearchP0_no_mutation_witness :
    (startSearchP0 ["colA"] c9WState).1 = c9WState :=
  startSearchP0_no_mutation ["colA"] c9WState (by decide)

/-- A rectangle binding `V1` through its `fills` surface. -/
def c3Leaf : Node :=
  .mk "n5" "RECTANGLE" none
    [("fills", [("color", BindingVal.single ⟨"VARIABLE_ALIAS", "V1"⟩)])]
    none none none none []

def c3Wrap (n : Node) : Node := .mk "f" "FRAME" none [] none none none none [n]

/-- A component whose subtree holds `c3Leaf` at depth 5. -/
def c3Component : Node :=
  .mk "comp" "COMPONENT" none [] none none none none
    [c3Wrap (c3Wrap (c3Wrap (c3Wrap c3Leaf)))]

/-- An instance of `c3Component` with no children of its own: the component's
subtree is reachable only through the `mainComponent` reference. -/
def c3Instance : Node :=
  .mk "inst" "INSTANCE" none [] none none none (some c3Component) []

/-- C3 (code bug): a variable bound only on a child at depth 5 inside an
instance's main component is NOT marked used by the scan, in either scanner
variant — `scanNodes` resolves the main component but hands it to the
per-node `checkVariableUsage`, which never recurses into `children`, so
bindings strictly below the component root are missed.  The first conjunct
shows the binding is there (the per-node check on the leaf itself sees it)
and the last shows the same page-level scan does find it whenever the
component subtree is reachable through the page tree, isolating the miss to
the `mainComponent` path. -/
theorem scanNodes_misses_deep_component_binding :
    "V1" ∈ checkVariableUsage [] c3Leaf ∧
    "V1" ∉ scanNodes [] [c3Instance] ∧
    "V1" ∉ scanNodesP0 [] [c3Instance] ∧
    "V1" ∈ scanNodes [] [c3Component] := by
  refine ⟨?_, ?_, ?_, ?_⟩ <;> decide

/-- The chain store for the C1 counterexample: `a` aliases `b`, `b` aliases
`c`, `c` is a literal; a single rectangle binds `a` directly. -/
def c1Var (i : String) (vals : List (String × VarValue)) : Variable :=
  { id := i, name := i, variableCollectionId := "col1", resolvedType := "COLOR"
    scopes := [], valuesByMode := vals, isDeleted := false }

def c1VA : Variable := c1Var "a" [("m", .aliasV "b")]
def c1VB : Variable := c1Var "b" [("m", .aliasV "c")]
def c1VC : Variable := c1Var "c" [("m", .literal)]

def c1Col : VariableCollection :=
  { id := "col1", name := "Col 1", modes := ["m"], variableIds := ["a", "b", "c"] }

def c1Store : VariableStore :=
  { localVariables := [c1VA, c1VB, c1VC], localCollections := [c1Col] }

def c1Rect : Node :=
  .mk "r1" "RECTANGLE" (some [("fills", BindingVal.single ⟨"VARIABLE_ALIAS", "a"⟩)])
    [] none none none none []

def c1State : PluginState :=
  { store := c1Store, pages := [[c1Rect]], styleRegistry := [], localTextStyles := []
    nextId := 0 }

/-- Counterexample to C1 as stated, at a concrete input: in the chain
`a → b → c` (`a`'s value aliases `b`, `b`'s value aliases `c`) with only `a`
directly bound on a node (the scan yields exactly `["a"]`), the expansion
leaves both `b` and `c` outside the usage set — the loop adds variables that
REFERENCE a used id, not the ids a used variable's value points at, so the
claim's chain direction fails on the code. -/
theorem transitive_expansion_chain_counterexample :
    p0ScanUsedVars c1State = ["a"] ∧
    c1VA.valuesByMode = [("m", VarValue.aliasV "b")] ∧
    c1VB.valuesByMode = [("m", VarValue.aliasV "c")] ∧
    "b" ∉ transitiveClosure c1Store [c1Col] (p0ScanUsedVars c1State).toFinset ∧
    "c" ∉ transitiveClosure c1Store [c1Col] (p0ScanUsedVars c1State).toFinset := by
  refine ⟨?_, rfl, rfl, ?_, ?_⟩ <;> decide

/-- C1 amended: the transitive expansion propagates along the REVERSE of the
alias direction — from a used variable to the variables referencing it.
Chain part: for a chain `a → b → c` (`a` aliases `b`, `b` aliases `c`, all
listed in the scanned collections) with the deepest target `c` in the
directly-found usage set, all of `a`, `b`, `c` end up in the expanded usage
set.  Cycle part (as in the original claim): for a cycle `a → b → a` where
each variable's alias values point only at the other and neither is directly
bound on any node or style (neither is in the initial set), neither ends up
in the expanded set. -/
theorem transitiveClosure_chain_and_cycle :
    (∀ (store : VariableStore) (cols : List VariableCollection) (S : Finset String)
       (a b c : String) (va vb : Variable),
       a ≠ b → b ≠ c →
       getVariableById store a = some va →
       getVariableById store b = some vb →
       (∃ m, (m, VarValue.aliasV b) ∈ va.valuesByMode) →
       (∃ m, (m, VarValue.aliasV c) ∈ vb.valuesByMode) →
       (∃ col ∈ cols, a ∈ col.variableIds) →
       (∃ col ∈ cols, b ∈ col.variableIds) →
       c ∈ S →
       a ∈ transitiveClosure store cols S ∧ b ∈ transitiveClosure store cols S ∧
         c ∈ transitiveClosure store cols S) ∧
    (∀ (store : VariableStore) (cols : List VariableCollection) (S : Finset String)
       (a b : String) (va vb : Variable),
       getVariableById store a = some va →
       getVariableById store b = some vb →
       (∀ p ∈ va.valuesByMode, ∀ y, p.2 = VarValue.aliasV y → y = b) →
       (∀ p ∈ vb.valuesByMode, ∀ y, p.2 = VarValue.aliasV y → y = a) →
       a ∉ S → b ∉ S →
       a ∉ transitiveClosure store cols S ∧ b ∉ transitiveClosure store cols S) := by
  constructor
  · intro store cols S a b c va vb hab hbc ha hb hvab hvbc hacol hbcol hcS
    have hc : c ∈ transitiveClosure store cols S := subset_transitiveClosure hcS
    obtain ⟨m2, hm2⟩ := hvbc
    have hbrefs : b ∈ checkVariableReferences store c cols :=
      mem_checkVariableReferences.mpr
        ⟨hbcol, referencesId_true_iff.mpr ⟨hbc, vb, hb, (m2, VarValue.aliasV c), hm2, rfl⟩⟩
    have hbmem : b ∈ transitiveClosure store cols S := transitiveClosure_closed hc hbrefs
    obtain ⟨m1, hm1⟩ := hvab
    have harefs : a ∈ checkVariableReferences store b cols :=
      mem_checkVariableReferences.mpr
        ⟨hacol, referencesId_true_iff.mpr ⟨hab, va, ha, (m1, VarValue.aliasV b), hm1, rfl⟩⟩
    exact ⟨transitiveClosure_closed hbmem harefs, hbmem, hc⟩
  · intro store cols S a b va vb ha hb hvaOnly hvbOnly haS hbS
    have hmain : transitiveClosure store cols S ⊆ (refsPool cols ∪ S) \ {a, b} := by
      apply transitiveClosure_min
      · intro x hx
        refine Finset.mem_sdiff.mpr ⟨Finset.mem_union_right _ hx, ?_⟩
        simp only [Finset.mem_insert, Finset.mem_singleton]
        rintro (rfl | rfl)
        · exact haS hx
        · exact hbS hx
      · intro y hy x hx
        have hy2 := Finset.mem_sdiff.mp hy
        refine Finset.mem_sdiff.mpr
          ⟨Finset.mem_union_left _ (checkVariableReferences_subset_pool hx), ?_⟩
        simp only [Finset.mem_insert, Finset.mem_singleton]
        obtain ⟨-, href⟩ := mem_checkVariableReferences.mp hx
        obtain ⟨hxy, vx, hvx, p, hp, hpval⟩ := referencesId_true_iff.mp href
        rintro (rfl | rfl)
        · have hva : va = vx := by rw [ha] at hvx; exact Option.some.inj hvx
          have : y = b := hvaOnly p (hva ▸ hp) y hpval
          subst this
          exact hy2.2 (by simp)
        · have hvb : vb = vx := by rw [hb] at hvx; exact Option.some.inj hvx
          have : y = a := hvbOnly p (hvb ▸ hp) y hpval
          subst this
          exact hy2.2 (by simp)
    constructor
    · intro hmem
      have := Finset.mem_sdiff.mp (hmain hmem)
      exact this.2 (by simp)
    · intro hmem
      have := Finset.mem_sdiff.mp (hmain hmem)
      exact this.2 (by simp)

/-- The reversed chain and the cycle at concrete inputs for the C1 witness. -/
def c1WVA : Variable := c1Var "a" [("m", .aliasV "b")]
def c1WVB : Variable := c1Var "b" [("m", .aliasV "a")]

def c1WStore : VariableStore :=
  { localVariables := [c1WVA, c1WVB], localCollections := [c1Col] }

/-- Witness for C1 (amended) at concrete inputs: in the chain store with the
deepest target `c` directly bound, all of `a`, `b`, `c` are in the expanded
set; in the cycle store with neither `a` nor `b` directly bound (initial set
`{"z"}`), neither is in the expanded set. -/
theorem transitiveClosure_chain_and_cycle_witness :
    ("a" ∈ transitiveClosure c1Store [c1Col] {"c"} ∧
      "b" ∈ transitiveClosure c1Store [c1Col] {"c"} ∧
      "c" ∈ transitiveClosure c1Store [c1Col] {"c"}) ∧
    ("a" ∉ transitiveClosure c1WStore [c1Col] {"z"} ∧
      "b" ∉ transitiveClosure c1WStore [c1Col] {"z"}) :=
  ⟨transitiveClosure_chain_and_cycle.1 c1Store [c1Col] {"c"} "a" "b" "c" c1VA c1VB
     (by decide) (by decide) (by decide) (by decide)
     ⟨"m", by decide⟩ ⟨"m", by decide⟩
     ⟨c1Col, by decide, by decide⟩ ⟨c1Col, by decide, by decide⟩ (by decide),
   transitiveClosure_chain_and_cycle.2 c1WStore [c1Col] {"z"} "a" "b" c1WVA c1WVB
     (by decide) (by decide)
     (by
       intro p hp y hy
       simp only [c1WVA, c1Var, List.mem_singleton] at hp
       subst hp
       exact (VarValue.aliasV.inj hy).symm)
     (by
       intro p hp y hy
       simp only [c1WVB, c1Var, List.mem_singleton] at hp
       subst hp
       exact (VarValue.aliasV.inj hy).symm)
     (by decide) (by decide)⟩
